import Mathlib

/-!
# Verification of the dockforward port-forwarding and service-state engine

Shallow embedding of the Go sources of `dockforward` (package `pkg`):
the Docker client (`GetServices`, `forwardPorts`, `extractPorts`,
`parseContainerState`, `UpdateForwardingStatus`, `RemapPort`,
`GetPortMapping`), the SSH client (`ForwardPort`, `IsPortInUse`) and the
UI wrapper `handleRemapPort`.  Effectful Go code is modelled as explicit
state passing; Go maps are modelled as association lists with
overwrite-on-insert semantics; panics and errors are modelled with
`Option`/`Except`.
-/

namespace Dockforward

/-- Forward-status constant `StatusNotForwarded` from `types.go`. -/
def StatusNotForwarded : String := "Not forwarded"

/-- Forward-status constant `StatusForwarded` from `types.go`. -/
def StatusForwarded : String := "Forwarded"

/-- Forward-status constant `StatusReady` from `types.go`. -/
def StatusReady : String := "Ready"

/-- Forward-status constant `StatusError` from `types.go`. -/
def StatusError : String := "Error"

/-- Forward-status constant `StatusConflict` from `types.go`. -/
def StatusConflict : String := "Conflict"

/-- Health-status constant `HealthHealthy` from `types.go`. -/
def HealthHealthy : String := "Healthy"

/-- Health-status constant `HealthUnhealthy` from `types.go`. -/
def HealthUnhealthy : String := "Unhealthy"

/-- Health-status constant `HealthStarting` from `types.go`. -/
def HealthStarting : String := "Starting"

/-- Health-status constant `HealthRunning` from `types.go`. -/
def HealthRunning : String := "Running"

/-- Health-status constant `HealthRestarting` from `types.go`. -/
def HealthRestarting : String := "Restarting"

/-- Health-status constant `HealthCreated` from `types.go`. -/
def HealthCreated : String := "Created"

/-- Health-status constant `HealthRemoving` from `types.go`. -/
def HealthRemoving : String := "Removing"

/-- Health-status constant `HealthPaused` from `types.go`. -/
def HealthPaused : String := "Paused"

/-- Health-status constant `HealthExited` from `types.go`. -/
def HealthExited : String := "Exited"

/-- Health-status constant `HealthDead` from `types.go`. -/
def HealthDead : String := "Dead"

/-- Health-status constant `HealthUnknown` from `types.go`. -/
def HealthUnknown : String := "Unknown"

/-- Docker API `Port` record (`types.go`).  `PublicPort` is the published
host port; `0` models the JSON field being absent.  The Go field `Type`
is named `Typ` here because `Type` is reserved in Lean. -/
structure Port where
  IP : String
  PrivatePort : Nat
  PublicPort : Nat
  Typ : String
deriving DecidableEq, Repr

/-- Docker API `Container` record (`types.go`). -/
structure Container where
  ID : String
  Names : List String
  State : String
  Status : String
  Ports : List Port
deriving DecidableEq, Repr

/-- `ServiceStatus` record (`types.go`). -/
structure ServiceStatus where
  Name : String
  ExposedPorts : List String
  HealthStatus : String
  ForwardStatus : String
  LocalPorts : List String
  Conflicts : List String
deriving DecidableEq, Repr

/-- Boolean test that `pre` is a prefix of `s` (character lists),
mirroring the prefix scan inside Go's `strings.Contains`. -/
def hasPrefixL : List Char → List Char → Bool
  | [], _ => true
  | _ :: _, [] => false
  | a :: as, b :: bs => a == b && hasPrefixL as bs

/-- Substring test on character lists: `sub` occurs somewhere in `s`. -/
def containsL (s sub : List Char) : Bool :=
  hasPrefixL sub s ||
    match s with
    | [] => false
    | _ :: rest => containsL rest sub

/-- Go's `strings.Contains s sub`. -/
def goContains (s sub : String) : Bool :=
  containsL s.toList sub.toList

/-- `DockerClient.parseContainerState` (`docker.go`): maps a container's
raw `State` and `Status` text to a health-status string.  Note the source
tests `strings.Contains(status, "healthy")` before
`strings.Contains(status, "unhealthy")`. -/
def parseContainerState (state status : String) : String :=
  if state = "running" then
    if goContains status "healthy" then HealthHealthy
    else if goContains status "unhealthy" then HealthUnhealthy
    else HealthRunning
  else if state = "created" then HealthCreated
  else if state = "restarting" then HealthRestarting
  else if state = "removing" then HealthRemoving
  else if state = "paused" then HealthPaused
  else if state = "exited" then HealthExited
  else if state = "dead" then HealthDead
  else HealthUnknown

example : goContains "Up 2 minutes (unhealthy)" "healthy" = true := by decide

example : parseContainerState "running" "Up 2 minutes (unhealthy)" = HealthHealthy := by decide

/-- Byte-wise lexicographic order on character lists, as Go's `<` on
strings compares (all strings in play are ASCII digit strings). -/
def charListLe : List Char → List Char → Bool
  | [], _ => true
  | _ :: _, [] => false
  | a :: as, b :: bs =>
    if a.toNat < b.toNat then true
    else if b.toNat < a.toNat then false
    else charListLe as bs

/-- Go's string `<=` used by `sort.Strings`. -/
def strLe (a b : String) : Bool :=
  charListLe a.toList b.toList

/-- Insert a string into a list sorted by `strLe`. -/
def insertStr (x : String) : List String → List String
  | [] => [x]
  | y :: ys => if strLe x y then x :: y :: ys else y :: insertStr x ys

/-- `sort.Strings`: sort a list of strings in ascending lexicographic
(string) order. -/
def sortStrings (l : List String) : List String :=
  l.foldr insertStr []

/-- `IsPortInUse` (`ssh.go` 199-206): linear scan of `localPorts` for an
exact string match against `port`. -/
def IsPortInUse (port : String) (localPorts : List String) : Bool :=
  match localPorts with
  | [] => false
  | p :: rest => if p = port then true else IsPortInUse port rest

theorem IsPortInUse_iff_mem (port : String) (localPorts : List String) :
    IsPortInUse port localPorts = true ↔ port ∈ localPorts := by
  induction localPorts with
  | nil => simp [IsPortInUse]
  | cons p rest ih =>
    simp only [IsPortInUse]
    by_cases h : p = port
    · subst h
      simp
    · rw [if_neg h, List.mem_cons, ih]
      constructor
      · exact Or.inr
      · rintro (h1 | hm)
        · exact absurd h1.symm h
        · exact hm

/-- `DockerClient.extractPorts` (`docker.go`): collect the decimal strings
of the nonzero `PublicPort`s into a set (a Go map), then return the keys
sorted by `sort.Strings`. -/
def extractPorts (ports : List Port) : List String :=
  sortStrings
    (((ports.filter (fun p => p.PublicPort ≠ 0)).map
        (fun p => toString p.PublicPort)).dedup)

example : extractPorts [⟨"", 80, 9000, "tcp"⟩, ⟨"", 81, 10000, "tcp"⟩] =
    ["10000", "9000"] := by decide

/-! ## Association-list helpers modelling Go maps -/

/-- Look up a key in an association list (Go map read). -/
def lookupKV (m : List (String × String)) (k : String) : Option String :=
  match m with
  | [] => none
  | (k', v) :: rest => if k' = k then some v else lookupKV rest k

/-- Overwrite-or-append a key in an association list (Go map write). -/
def setKV (m : List (String × String)) (k v : String) : List (String × String) :=
  match m with
  | [] => [(k, v)]
  | (k', v') :: rest => if k' = k then (k, v) :: rest else (k', v') :: setKV rest k v

/-- Delete a key from an association list (Go `delete`). -/
def removeKV (m : List (String × String)) (k : String) : List (String × String) :=
  match m with
  | [] => []
  | (k', v') :: rest => if k' = k then rest else (k', v') :: removeKV rest k

/-! ## `UpdateForwardingStatus` (`docker.go` 188-222) -/

/-- One iteration of the per-port loop of `UpdateForwardingStatus`: the
accumulator carries the conflicts collected so far (the Go `conflicts`
map, as an insertion list later deduplicated) and the service's current
`ForwardStatus`. -/
def updateStep (localPorts : List String) (acc : List String × String)
    (port : String) : List String × String :=
  if IsPortInUse port localPorts then (acc.1 ++ [port], StatusConflict)
  else if acc.2 ≠ StatusConflict then (acc.1, StatusReady)
  else acc

/-- The body of `UpdateForwardingStatus` for one service: reset the
conflicts, start from `StatusForwarded`, fold the per-port loop over
`ExposedPorts`, then store the sorted deduplicated conflict set. -/
def updateService (svc : ServiceStatus) (localPorts : List String) :
    ServiceStatus :=
  let r := svc.ExposedPorts.foldl (updateStep localPorts) ([], StatusForwarded)
  { svc with ForwardStatus := r.2, Conflicts := sortStrings r.1.dedup }

/-! ## `forwardPorts` (`docker.go` 120-131) and `ForwardPort` result -/

/-- The status produced by `DockerClient.forwardPorts`, abstracted over
the success of each `ForwardPort` call (`fwd port = true` means the call
returned `nil`): on the first failing port the status becomes
`StatusError` and the loop stops; if every call succeeds — including when
there are no exposed ports at all — the status is set to
`StatusForwarded`. -/
def forwardPortsGo (ports : List String) (fwd : String → Bool) : String :=
  match ports with
  | [] => StatusForwarded
  | p :: rest => if fwd p then forwardPortsGo rest fwd else StatusError

/-- `SSHClient.ForwardPort` (`ssh.go` 77-125) always reaches `return nil`:
every error inside it is swallowed (the lsof/kill errors are ignored and
the forwarding command runs in a goroutine). -/
def forwardPortAlwaysNil : Bool := true

/-! ## The tunnel-session background task (`ssh.go` 112-122)

The goroutine runs the `ssh -L` command in a loop.  We model one run of
the loop body by the exit result of the spawned process (`true` = the
process exited with a non-nil error).  Per the source, a run that returns
an error logs, deletes the port from `s.ports` and `return`s — ending the
task — while a run that returns `nil` loops and re-runs the command. -/

/-- Run the tunnel-session task over a finite trace of process-exit
results.  Returns `(ended, mappingDeleted)`: whether the background task
has terminated, and whether it deleted its remote port from the `ports`
map.  An empty remaining trace means the task is still alive (looping). -/
def tunnelTask : List Bool → Bool × Bool
  | [] => (false, false)
  | e :: es => if e then (true, true) else tunnelTask es

/-! ## `SSHClient.ForwardPort` state machine (`ssh.go` 77-125) -/

/-- The SSH-client state: the `ports` map (remote port → local port) and
the live forwarding sessions.  A live session is a pair
`(remotePort, localPort)`; its OS process is bound locally at
`localPort`. -/
structure SSHState where
  ports : List (String × String)
  live : List (String × String)
deriving DecidableEq, Repr

/-- The body of `SSHClient.ForwardPort` after the empty-`localPort`
normalisation.  If the remote port is already mapped to the same local
port, no-op.  If it is mapped to a different local port, the code runs
`lsof -ti :remotePort` and kills the processes found — i.e. the live
sessions *bound at* `remotePort` — and deletes the map entry.  In both
the remap and the fresh case it then records the new mapping and spawns a
new session. -/
def forwardPortCore (st : SSHState) (remotePort localPort : String) :
    SSHState :=
  match lookupKV st.ports remotePort with
  | some mapped =>
    if mapped = localPort then st
    else
      { ports := setKV (removeKV st.ports remotePort) remotePort localPort,
        live := st.live.filter (fun s => s.2 ≠ remotePort) ++
          [(remotePort, localPort)] }
  | none =>
    { ports := setKV st.ports remotePort localPort,
      live := st.live ++ [(remotePort, localPort)] }

/-- `SSHClient.ForwardPort remotePort localPort` (`ssh.go` 77-125): an
empty `localPort` defaults to `remotePort`, then the body runs. -/
def forwardPort (st : SSHState) (remotePort localPort : String) : SSHState :=
  forwardPortCore st remotePort
    (if localPort = "" then remotePort else localPort)

example :
    (forwardPort (forwardPort ⟨[], []⟩ "8080" "9000") "8080" "9001").live =
      [("8080", "9000"), ("8080", "9001")] := by decide

/-! ## `RemapPort`, `GetPortMapping` (`docker.go` 242-276) -/

/-- The `portMappings` table of `DockerClient`:
service name → (remote port → local port). -/
abbrev PortMappings : Type := List (String × List (String × String))

/-- Helper `contains` (`display.go` 267): linear scan for an exact string
match. -/
def containsGo (slice : List String) (item : String) : Bool :=
  match slice with
  | [] => false
  | v :: rest => if v = item then true else containsGo rest item

/-- Look up a service's mapping table in `portMappings`. -/
def lookupPM (pm : PortMappings) (name : String) :
    Option (List (String × String)) :=
  match pm with
  | [] => none
  | (n, m) :: rest => if n = name then some m else lookupPM rest name

/-- Overwrite-or-append a service's mapping table in `portMappings`. -/
def setPM (pm : PortMappings) (name : String) (m : List (String × String)) :
    PortMappings :=
  match pm with
  | [] => [(name, m)]
  | (n, m') :: rest =>
    if n = name then (name, m) :: rest else (n, m') :: setPM rest name m

/-- Helper `removeString` (`docker.go` 279-286): remove the first
occurrence of `s`, or return the slice unchanged when absent. -/
def removeStringGo (slice : List String) (s : String) : List String :=
  match slice with
  | [] => []
  | v :: rest => if v = s then rest else v :: removeStringGo rest s

/-- `DockerClient.RemapPort` (`docker.go` 242-263): store the new mapping
(initialising the service's table when missing), drop the remote port
from the service's conflicts when present, set the status to
`StatusReady`, and return `nil` (modelled as the final `Option String`
error component). -/
def remapPort (pm : PortMappings) (svc : ServiceStatus)
    (remotePort localPort : String) :
    PortMappings × ServiceStatus × Option String :=
  (setPM pm svc.Name
      (setKV ((lookupPM pm svc.Name).getD []) remotePort localPort),
    { svc with
        Conflicts :=
          if containsGo svc.Conflicts remotePort then
            removeStringGo svc.Conflicts remotePort
          else svc.Conflicts,
        ForwardStatus := StatusReady },
    none)

/-- `DockerClient.GetPortMapping` (`docker.go` 266-276): the stored local
port for `(serviceName, remotePort)`, defaulting to `remotePort` itself
when no mapping exists. -/
def getPortMapping (pm : PortMappings) (serviceName remotePort : String) :
    String :=
  match lookupPM pm serviceName with
  | some m =>
    match lookupKV m remotePort with
    | some localPort => localPort
    | none => remotePort
  | none => remotePort

/-- `DisplayManager.handleRemapPort` (`display.go` 152-172): obtain the
local in-use ports (on error: log and return, no mutation), reject when
`newPort` is already in use (log and return, no mutation), otherwise call
`RemapPort`.  The subsequent `ForwardPorts` call mutates only SSH state
and is modelled separately by `forwardPort`. -/
def handleRemapPort (pm : PortMappings) (svc : ServiceStatus)
    (localPorts : Except String (List String)) (port newPort : String) :
    PortMappings × ServiceStatus :=
  match localPorts with
  | .error _ => (pm, svc)
  | .ok lp =>
    if IsPortInUse newPort lp then (pm, svc)
    else
      let r := remapPort pm svc port newPort
      (r.1, r.2.1)

/-! ## `GetServices` (`docker.go` 81-117) and the poll loop -/

/-- `strings.TrimPrefix`: drop `pre` from the front of `s` when present,
modelled on character lists. -/
def trimPrefixGo (s pre : String) : String :=
  if hasPrefixL pre.toList s.toList then
    String.mk (s.toList.drop pre.toList.length)
  else s

/-- Overwrite-or-append into the service map (Go map write). -/
def setSvc (m : List (String × ServiceStatus)) (k : String)
    (v : ServiceStatus) : List (String × ServiceStatus) :=
  match m with
  | [] => [(k, v)]
  | (k', v') :: rest =>
    if k' = k then (k, v) :: rest else (k', v') :: setSvc rest k v

/-- The container loop of `GetServices`, accumulating the service map in
iteration order.  Indexing `container.Names[0]` on an empty `Names` slice
panics in Go; the panic is modelled as `none`.  Each service's
`ForwardStatus` is `StatusNotForwarded` at construction and is then set
by `forwardPorts` (modelled by `forwardPortsGo ports fwd`, where `fwd`
gives each `ForwardPort` call's success). -/
def processContainersAux (acc : List (String × ServiceStatus)) :
    List Container → (String → Bool) → Option (List (String × ServiceStatus))
  | [], _ => some acc
  | c :: rest, fwd =>
    match c.Names with
    | [] => none
    | n :: _ =>
      let name := trimPrefixGo n "/"
      let ports := extractPorts c.Ports
      let svc : ServiceStatus :=
        { Name := name, ExposedPorts := ports,
          HealthStatus := parseContainerState c.State c.Status,
          ForwardStatus := forwardPortsGo ports fwd,
          LocalPorts := [], Conflicts := [] }
      processContainersAux (setSvc acc name svc) rest fwd

/-- The container-processing part of `GetServices`. -/
def processContainers (cs : List Container) (fwd : String → Bool) :
    Option (List (String × ServiceStatus)) :=
  processContainersAux [] cs fwd

/-- Look up a service by name in the service map (Go map read). -/
def lookupSvc (m : List (String × ServiceStatus)) (k : String) :
    Option ServiceStatus :=
  match m with
  | [] => none
  | (k', v) :: rest => if k' = k then some v else lookupSvc rest k

/-- Numeric value of a decimal port string, for stating what "ascending
numerical order" means. -/
def natOfString (s : String) : Nat :=
  s.toList.foldl (fun n c => n * 10 + (c.toNat - 48)) 0

/-- `GetServices`: the HTTP query and the JSON decode each fail by
returning `(nil, err)` before any container is processed; both error
sources are modelled by the `Except` response.  On success the container
loop builds a fresh map (`none` models a panic on an empty `Names`). -/
def getServicesGo (resp : Except String (List Container))
    (fwd : String → Bool) :
    Except String (Option (List (String × ServiceStatus))) :=
  match resp with
  | .error e => .error e
  | .ok cs => .ok (processContainers cs fwd)

/-- One poll-loop iteration (`LandingScreen.updateServices`,
`screens.go` 59-70): on a `GetServices` error, log it and keep the prior
service map; on success, replace the map wholesale via `UpdateServices`.
The result is the new service map together with the logged error, or
`none` when `GetServices` panicked. -/
def pollStep (prior : List (String × ServiceStatus))
    (resp : Except String (List Container)) (fwd : String → Bool) :
    Option (List (String × ServiceStatus) × Option String) :=
  match getServicesGo resp fwd with
  | .error e => some (prior, some e)
  | .ok none => none
  | .ok (some svcs) => some (svcs, none)

/-! ## Spec-side conflict computation (refinement reference) -/

/-- Modelled from the spec (§4.4, `ComputeConflicts`), as the reference
for the refinement comparison with `updateService`: a remote port is in
conflict iff its local mapping (`mapping`, defaulting to identity when no
explicit remap exists) is present in `localPorts` and that local listener
is not one of this engine's own tunnel sessions (`ownSessionPorts`). -/
def computeConflictsSpec (svc : ServiceStatus) (mapping : String → String)
    (localPorts ownSessionPorts : List String) : List String :=
  svc.ExposedPorts.filter
    (fun r => localPorts.contains (mapping r) &&
      !(ownSessionPorts.contains (mapping r)))

/-! ## Helper lemmas about `sortStrings` -/

theorem mem_insertStr (x y : String) (l : List String) :
    y ∈ insertStr x l ↔ y = x ∨ y ∈ l := by
  induction l with
  | nil => simp [insertStr]
  | cons z zs ih =>
    simp only [insertStr]
    split
    · simp
    · simp [ih]
      tauto

theorem sortStrings_cons (z : String) (zs : List String) :
    sortStrings (z :: zs) = insertStr z (sortStrings zs) := rfl

theorem mem_sortStrings (y : String) (l : List String) :
    y ∈ sortStrings l ↔ y ∈ l := by
  induction l with
  | nil => simp [sortStrings]
  | cons z zs ih =>
    rw [sortStrings_cons, mem_insertStr]
    simp [ih]

theorem nodup_insertStr (x : String) (l : List String) (hx : x ∉ l)
    (hl : l.Nodup) : (insertStr x l).Nodup := by
  induction l with
  | nil => simp [insertStr]
  | cons z zs ih =>
    simp only [insertStr]
    rw [List.mem_cons, not_or] at hx
    rw [List.nodup_cons] at hl
    split
    · exact List.nodup_cons.mpr ⟨by simp [hx.1, hx.2],
        List.nodup_cons.mpr ⟨hl.1, hl.2⟩⟩
    · refine List.nodup_cons.mpr ⟨?_, ih hx.2 hl.2⟩
      rw [mem_insertStr]
      rintro (h | h)
      · exact hx.1 h.symm
      · exact hl.1 h

theorem nodup_sortStrings (l : List String) (hl : l.Nodup) :
    (sortStrings l).Nodup := by
  induction l with
  | nil => simp [sortStrings]
  | cons z zs ih =>
    rw [List.nodup_cons] at hl
    rw [sortStrings_cons]
    refine nodup_insertStr _ _ ?_ (ih hl.2)
    rw [mem_sortStrings]
    exact hl.1

theorem charListLe_total (a b : List Char) :
    charListLe a b = true ∨ charListLe b a = true := by
  induction a generalizing b with
  | nil => left; simp [charListLe]
  | cons x xs ih =>
    cases b with
    | nil => right; simp [charListLe]
    | cons y ys =>
      simp only [charListLe]
      rcases Nat.lt_trichotomy x.toNat y.toNat with h | h | h
      · left; simp [h]
      · have h1 : ¬ x.toNat < y.toNat := by omega
        have h2 : ¬ y.toNat < x.toNat := by omega
        simp [h1, h2, h]
        exact ih ys
      · right; simp [h]

theorem strLe_total (a b : String) : strLe a b = true ∨ strLe b a = true :=
  charListLe_total a.toList b.toList

theorem chain_insertStr (x : String) (l : List String)
    (hl : l.Chain' (fun a b => strLe a b = true)) :
    (insertStr x l).Chain' (fun a b => strLe a b = true) := by
  induction l with
  | nil => simp [insertStr]
  | cons z zs ih =>
    rw [List.chain'_cons'] at hl
    simp only [insertStr]
    split
    · rename_i hle
      refine List.chain'_cons'.mpr ⟨?_, List.chain'_cons'.mpr hl⟩
      intro y hy
      obtain rfl : z = y := by simpa using hy
      exact hle
    · rename_i hle
      have hzx : strLe z x = true := by
        rcases strLe_total x z with h | h
        · exact absurd h hle
        · exact h
      refine List.chain'_cons'.mpr ⟨?_, ih hl.2⟩
      intro y hy
      cases zs with
      | nil =>
        obtain rfl : x = y := by simpa [insertStr] using hy
        exact hzx
      | cons w ws =>
        by_cases hxw : strLe x w = true
        · obtain rfl : x = y := by simpa [insertStr, hxw] using hy
          exact hzx
        · obtain rfl : w = y := by simpa [insertStr, hxw] using hy
          exact hl.1 w rfl

theorem chain_sortStrings (l : List String) :
    (sortStrings l).Chain' (fun a b => strLe a b = true) := by
  induction l with
  | nil => simp [sortStrings]
  | cons z zs ih =>
    rw [sortStrings_cons]
    exact chain_insertStr z _ ih

/-! ## Helper lemmas about the `UpdateForwardingStatus` fold -/

theorem foldl_updateStep_conflict (lp : List String) (ports : List String)
    (c : List String) :
    ports.foldl (updateStep lp) (c, StatusConflict) =
      (c ++ ports.filter (fun p => IsPortInUse p lp), StatusConflict) := by
  induction ports generalizing c with
  | nil => simp
  | cons p rest ih =>
    rw [List.foldl_cons]
    by_cases hp : IsPortInUse p lp
    · have hstep : updateStep lp (c, StatusConflict) p =
          (c ++ [p], StatusConflict) := by
        unfold updateStep
        rw [if_pos hp]
      rw [hstep, ih]
      simp [List.filter_cons, hp]
    · have hstep : updateStep lp (c, StatusConflict) p =
          (c, StatusConflict) := by
        unfold updateStep
        rw [if_neg hp]
        simp
      rw [hstep, ih]
      simp [List.filter_cons, hp]

theorem foldl_updateStep_fr (lp : List String) (ports : List String)
    (c : List String) (s : String)
    (hs : s = StatusForwarded ∨ s = StatusReady) :
    ports.foldl (updateStep lp) (c, s) =
      (c ++ ports.filter (fun p => IsPortInUse p lp),
        if ports.any (fun p => IsPortInUse p lp) then StatusConflict
        else if ports.isEmpty then s else StatusReady) := by
  induction ports generalizing c s with
  | nil => simp
  | cons p rest ih =>
    have hsne : s ≠ StatusConflict := by
      rcases hs with rfl | rfl <;> decide
    rw [List.foldl_cons]
    by_cases hp : IsPortInUse p lp
    · have hstep : updateStep lp (c, s) p = (c ++ [p], StatusConflict) := by
        unfold updateStep
        rw [if_pos hp]
      rw [hstep, foldl_updateStep_conflict]
      simp [hp, List.filter_cons]
    · have hstep : updateStep lp (c, s) p = (c, StatusReady) := by
        unfold updateStep
        rw [if_neg hp]
        simp [hsne]
      rw [hstep, ih c StatusReady (Or.inr rfl), ite_self]
      simp [List.filter_cons, hp, List.isEmpty_cons]

/-- The final state of one service after the `UpdateForwardingStatus`
loop: the conflicts are the locally-in-use exposed ports (deduplicated
and sorted), and the status is `Conflict` when any port is in use,
`Forwarded` when there are no exposed ports, and `Ready` otherwise. -/
theorem updateService_eq (svc : ServiceStatus) (lp : List String) :
    updateService svc lp =
      { svc with
        ForwardStatus :=
          if svc.ExposedPorts.any (fun p => IsPortInUse p lp) then
            StatusConflict
          else if svc.ExposedPorts.isEmpty then StatusForwarded
          else StatusReady,
        Conflicts :=
          sortStrings
            ((svc.ExposedPorts.filter (fun p => IsPortInUse p lp)).dedup) } := by
  unfold updateService
  rw [foldl_updateStep_fr lp svc.ExposedPorts [] StatusForwarded (Or.inl rfl)]
  simp

/-! ## Helper lemmas about `forwardPortsGo` -/

theorem forwardPortsGo_eq (ports : List String) (fwd : String → Bool) :
    forwardPortsGo ports fwd =
      if ports.all fwd then StatusForwarded else StatusError := by
  induction ports with
  | nil => simp [forwardPortsGo]
  | cons p rest ih =>
    simp only [forwardPortsGo, List.all_cons]
    by_cases hp : fwd p
    · simp [hp, ih]
    · simp [hp]

/-! ## Helper lemmas about the association-list maps -/

theorem lookupKV_setKV_self (m : List (String × String)) (k v : String) :
    lookupKV (setKV m k v) k = some v := by
  induction m with
  | nil => simp [setKV, lookupKV]
  | cons kv rest ih =>
    obtain ⟨k', v'⟩ := kv
    simp only [setKV]
    by_cases h : k' = k
    · simp [h, lookupKV]
    · simp [h, lookupKV, ih]

theorem lookupPM_setPM_self (pm : PortMappings) (name : String)
    (m : List (String × String)) :
    lookupPM (setPM pm name m) name = some m := by
  induction pm with
  | nil => simp [setPM, lookupPM]
  | cons nm rest ih =>
    obtain ⟨n, m'⟩ := nm
    simp only [setPM]
    by_cases h : n = name
    · simp [h, lookupPM]
    · simp [h, lookupPM, ih]

theorem containsGo_of_mem (l : List String) (s : String) (h : s ∈ l) :
    containsGo l s = true := by
  induction l with
  | nil => simp at h
  | cons v rest ih =>
    simp only [containsGo]
    by_cases hv : v = s
    · rw [if_pos hv]
    · rw [if_neg hv]
      rcases List.mem_cons.mp h with h1 | h1
      · exact absurd h1.symm hv
      · exact ih h1

theorem not_mem_removeStringGo (l : List String) (s : String)
    (hl : l.Nodup) : s ∉ removeStringGo l s := by
  induction l with
  | nil => simp [removeStringGo]
  | cons v rest ih =>
    rw [List.nodup_cons] at hl
    simp only [removeStringGo]
    by_cases h : v = s
    · subst h
      rw [if_pos rfl]
      exact hl.1
    · rw [if_neg h, List.mem_cons, not_or]
      exact ⟨fun hsv => h hsv.symm, ih hl.2⟩

/-! ## Helper lemmas about `forwardPort` -/

theorem forwardPortCore_idem (st : SSHState) (r l : String) :
    forwardPortCore (forwardPortCore st r l) r l = forwardPortCore st r l := by
  cases h : lookupKV st.ports r with
  | none =>
    have h1 : forwardPortCore st r l =
        ⟨setKV st.ports r l, st.live ++ [(r, l)]⟩ := by
      unfold forwardPortCore
      simp only [h]
    rw [h1]
    unfold forwardPortCore
    simp only [lookupKV_setKV_self]
    simp
  | some m =>
    by_cases hm : m = l
    · have h1 : forwardPortCore st r l = st := by
        unfold forwardPortCore
        simp only [h]
        rw [if_pos hm]
      rw [h1]
      exact h1
    · have h1 : forwardPortCore st r l =
          ⟨setKV (removeKV st.ports r) r l,
            st.live.filter (fun s => s.2 ≠ r) ++ [(r, l)]⟩ := by
        unfold forwardPortCore
        simp only [h]
        rw [if_neg hm]
      rw [h1]
      unfold forwardPortCore
      simp only [lookupKV_setKV_self]
      simp

theorem forwardPort_idem (st : SSHState) (r l : String) :
    forwardPort (forwardPort st r l) r l = forwardPort st r l :=
  forwardPortCore_idem st r (if l = "" then r else l)

/-! ## Helper lemmas about `processContainersAux` -/

theorem processContainersAux_panic (cs : List Container) :
    ∀ (acc : List (String × ServiceStatus)) (fwd : String → Bool),
      (∃ c ∈ cs, c.Names = []) → processContainersAux acc cs fwd = none := by
  induction cs with
  | nil =>
    intro acc fwd h
    simp at h
  | cons c rest ih =>
    intro acc fwd h
    cases hn : c.Names with
    | nil =>
      simp only [processContainersAux, hn]
    | cons n ns =>
      simp only [processContainersAux, hn]
      apply ih
      rcases h with ⟨c', hc', hnames⟩
      rcases List.mem_cons.mp hc' with rfl | hmem
      · rw [hn] at hnames
        cases hnames
      · exact ⟨c', hmem, hnames⟩

/-- `hasExplicitMapping pm name r` holds when `portMappings` stores an
explicit local port for `(name, r)`. -/
def hasExplicitMapping (pm : PortMappings) (name r : String) : Bool :=
  match lookupPM pm name with
  | some m => (lookupKV m r).isSome
  | none => false

theorem getPortMapping_default (pm : PortMappings) (name r : String)
    (h : hasExplicitMapping pm name r = false) :
    getPortMapping pm name r = r := by
  unfold getPortMapping
  unfold hasExplicitMapping at h
  cases hm : lookupPM pm name with
  | none => rfl
  | some m =>
    rw [hm] at h
    have h' : (lookupKV m r).isSome = false := h
    show (match lookupKV m r with
      | some localPort => localPort
      | none => r) = r
    cases hk : lookupKV m r with
    | none => rfl
    | some v =>
      rw [hk] at h'
      simp at h'

/-! ## Concrete inputs used by counterexamples and witnesses -/

/-- The spec's scenario container `web`: one published port 3000,
running. -/
def webContainer : Container :=
  ⟨"c1", ["/web"], "running", "Up", [⟨"", 3000, 3000, "tcp"⟩]⟩

/-- The spec's scenario container `db`: running, no public ports. -/
def dbContainer : Container :=
  ⟨"c2", ["/db"], "running", "Up 5 minutes", []⟩

/-- A container record whose `Names` array is empty. -/
def namelessContainer : Container :=
  ⟨"deadbeef", [], "running", "Up", []⟩

/-- A service with two exposed ports, used by the conflict-detection
counterexample. -/
def svcApi : ServiceStatus :=
  ⟨"api", ["8080", "9090"], HealthRunning, StatusForwarded, [], []⟩

/-- A service with port 3000 in conflict, used by the remap witness. -/
def svcWeb : ServiceStatus :=
  ⟨"web", ["3000"], HealthRunning, StatusConflict, [], ["3000"]⟩

/-! ## Claim theorems -/

/-- C1 (counterexample): with local listeners on 8080 and 9090 where the
engine's own session binds 8080 and the port mappings are identity, the
claim predicts only 9090 in conflict (`computeConflictsSpec`), but the
code (`updateService`, the per-service body of `UpdateForwardingStatus`)
reports both 8080 and 9090: it never excludes the engine's own sessions. -/
theorem conflict_detection_counterexample :
    (updateService svcApi ["8080", "9090"]).Conflicts = ["8080", "9090"] ∧
    computeConflictsSpec svcApi (fun r => r) ["8080", "9090"] ["8080"] =
      ["9090"] ∧
    (["8080", "9090"] : List String) ≠ ["9090"] := by
  refine ⟨by decide, by decide, by decide⟩

/-- C1 (amended): a remote port of a service is reported as in conflict
iff the remote port itself is among the locally listening ports — the
local mapping from `PortMapping` is not consulted and the engine's own
tunnel sessions are not excluded. -/
theorem conflict_detection_amended (svc : ServiceStatus)
    (localPorts : List String) (p : String) :
    p ∈ (updateService svc localPorts).Conflicts ↔
      p ∈ svc.ExposedPorts ∧ IsPortInUse p localPorts = true := by
  rw [updateService_eq]
  show p ∈ sortStrings _ ↔ _
  rw [mem_sortStrings, List.mem_dedup, List.mem_filter]

/-- Witness for C1 (amended) at a concrete input. -/
theorem conflict_detection_amended_witness :
    "9090" ∈ (updateService svcApi ["9090"]).Conflicts ↔
      "9090" ∈ svcApi.ExposedPorts ∧ IsPortInUse "9090" ["9090"] = true :=
  conflict_detection_amended svcApi ["9090"] "9090"

/-- C2 (counterexample): the claim says a service with no exposed ports
gets status `NotForwarded` after a refresh; in the spec's own scenario
(`web` with port 3000 and `db` with no public ports, every `ForwardPort`
call succeeding) the refresh (`GetServices`, i.e. `processContainers`)
leaves `db` with status `Forwarded`, not `NotForwarded`; the
`UpdateForwardingStatus` pass also leaves a port-less service at
`Forwarded`. -/
theorem status_composition_counterexample :
    ((processContainers [webContainer, dbContainer] (fun _ => true)).bind
        (fun m => lookupSvc m "db")).map ServiceStatus.ForwardStatus =
      some StatusForwarded ∧
    (updateService ⟨"db", [], HealthRunning, StatusForwarded, [], []⟩
        []).ForwardStatus = StatusForwarded ∧
    StatusForwarded ≠ StatusNotForwarded := by
  refine ⟨by decide, by decide, by decide⟩

/-- C2 (amended): after a refresh, `forwardPorts` gives a service status
`Error` if some `ForwardPort` call fails and `Forwarded` otherwise —
including when the service has no exposed ports, which therefore shows
`Forwarded`, never `NotForwarded`; the separate `UpdateForwardingStatus`
pass gives `Conflict` if any exposed port is locally in use, `Forwarded`
if the service has no exposed ports, and `Ready` otherwise. -/
theorem status_composition_amended (svc : ServiceStatus)
    (localPorts : List String) (fwd : String → Bool) :
    forwardPortsGo svc.ExposedPorts fwd =
      (if svc.ExposedPorts.all fwd then StatusForwarded else StatusError) ∧
    (updateService svc localPorts).ForwardStatus =
      (if svc.ExposedPorts.any (fun p => IsPortInUse p localPorts) then
        StatusConflict
      else if svc.ExposedPorts.isEmpty then StatusForwarded
      else StatusReady) := by
  refine ⟨forwardPortsGo_eq _ _, ?_⟩
  rw [updateService_eq]

/-- C3 (code bug): the claim's mapping table says raw state `"running"`
with a status containing `"unhealthy"` maps to `Unhealthy`, but because
`"unhealthy"` contains `"healthy"` as a substring and the source tests
`"healthy"` first, `parseContainerState` returns `Healthy` there — the
`Unhealthy` branch is unreachable.  The other rows of the table
(`running` alone → `Running`, `exited` → `Exited`, unrecognized →
`Unknown`) do hold. -/
theorem health_mapping_unhealthy_code_bug :
    parseContainerState "running" "Up 2 minutes (unhealthy)" =
      HealthHealthy ∧
    HealthHealthy ≠ HealthUnhealthy ∧
    parseContainerState "running" "Up 5 minutes" = HealthRunning ∧
    parseContainerState "exited" "Exited (0) 2 hours ago" = HealthExited ∧
    parseContainerState "mystery" "" = HealthUnknown := by
  refine ⟨by decide, by decide, by decide, by decide, by decide⟩

/-- C4 (code bug): the session task's loop body (`ssh.go` 112-122) logs
"failed, retrying" when the forwarding process exits with an error — but
then deletes the port mapping and `return`s, ending the task while its
remote port is still wanted and not superseded.  A clean exit, by
contrast, loops and re-runs the command. -/
theorem tunnel_retry_code_bug :
    tunnelTask [true] = (true, true) ∧ tunnelTask [false] = (false, false) := by
  refine ⟨by decide, by decide⟩

/-- C5 (counterexample): remapping remote port 8080 from local port 9000
to 9001 kills only processes bound at port 8080 (`lsof -ti :8080`), so
the old session — bound at 9000 — survives: two live tunnel sessions for
remote port 8080 coexist, violating the at-most-one-session invariant. -/
theorem ensure_single_session_counterexample :
    (forwardPort (forwardPort ⟨[], []⟩ "8080" "9000") "8080" "9001").live =
      [("8080", "9000"), ("8080", "9001")] ∧
    ((forwardPort (forwardPort ⟨[], []⟩ "8080" "9000") "8080" "9001").live.filter
        (fun s => s.1 == "8080")).length = 2 := by
  refine ⟨by decide, by decide⟩

/-- C5 (amended): `ForwardPort` is idempotent — a second call with
identical arguments is a no-op on the whole SSH state, and two identical
calls from the empty state leave exactly one live session for the remote
port.  The at-most-one-session part of the claim fails when re-forwarding
to a different local port (see the counterexample): the teardown locates
the old process by the remote port number, while the old session is bound
at its local port. -/
theorem ensure_idempotent_amended (st : SSHState) (r l : String) :
    forwardPort (forwardPort st r l) r l = forwardPort st r l ∧
    ((forwardPort (forwardPort ⟨[], []⟩ r l) r l).live.filter
        (fun s => s.1 == r)).length = 1 := by
  refine ⟨forwardPort_idem st r l, ?_⟩
  rw [forwardPort_idem]
  show ((forwardPortCore ⟨[], []⟩ r _).live.filter _).length = 1
  unfold forwardPortCore
  simp [lookupKV, setKV]

/-- C6 (confirmed): when `GetServices` fails (transport or decode error),
one poll-loop iteration leaves the prior service map completely unchanged
and surfaces the error, which the loop logs and survives; no partial
update occurs, since both error paths return before any container is
processed. -/
theorem discovery_error_keeps_prior_map
    (prior : List (String × ServiceStatus)) (e : String)
    (fwd : String → Bool) :
    pollStep prior (Except.error e) fwd = some (prior, some e) := rfl

/-- C7 (confirmed): after `RemapPort` succeeds, the remapped remote port
resolves to the new local port via `GetPortMapping` and is no longer in
the service's conflict set (which the code builds duplicate-free); and
for any `(service, remotePort)` with no explicit mapping,
`GetPortMapping` returns the remote port itself. -/
theorem remap_invariants (pm : PortMappings) (svc : ServiceStatus)
    (r l : String) (pm₂ : PortMappings) (n₂ r₂ : String)
    (hnd : svc.Conflicts.Nodup)
    (hnm : hasExplicitMapping pm₂ n₂ r₂ = false) :
    getPortMapping (remapPort pm svc r l).1 svc.Name r = l ∧
    r ∉ ((remapPort pm svc r l).2.1).Conflicts ∧
    getPortMapping pm₂ n₂ r₂ = r₂ := by
  refine ⟨?_, ?_, getPortMapping_default pm₂ n₂ r₂ hnm⟩
  · show getPortMapping
      (setPM pm svc.Name (setKV ((lookupPM pm svc.Name).getD []) r l))
      svc.Name r = l
    unfold getPortMapping
    simp only [lookupPM_setPM_self, lookupKV_setKV_self]
  · show r ∉ (if containsGo svc.Conflicts r then
        removeStringGo svc.Conflicts r else svc.Conflicts)
    by_cases hc : containsGo svc.Conflicts r
    · rw [if_pos hc]
      exact not_mem_removeStringGo _ _ hnd
    · rw [if_neg hc]
      intro hmem
      exact hc (containsGo_of_mem _ _ hmem)

/-- Witness for C7 at a concrete input. -/
theorem remap_invariants_witness :
    getPortMapping (remapPort [] svcWeb "3000" "3001").1 svcWeb.Name "3000" =
      "3001" ∧
    "3000" ∉ ((remapPort [] svcWeb "3000" "3001").2.1).Conflicts ∧
    getPortMapping [] "web" "8080" = "8080" :=
  remap_invariants [] svcWeb "3000" "3001" [] "web" "8080" (by decide)
    (by decide)

/-- C8 (counterexample): the claim says the extracted exposed-port list is
sorted in ascending numerical order, but `extractPorts` sorts the decimal
strings with `sort.Strings`: on public ports 9000 and 10000 it returns
`["10000", "9000"]`, which is not numerically ascending. -/
theorem extract_ports_counterexample :
    extractPorts [⟨"", 80, 9000, "tcp"⟩, ⟨"", 81, 10000, "tcp"⟩] =
      ["10000", "9000"] ∧
    (extractPorts [⟨"", 80, 9000, "tcp"⟩, ⟨"", 81, 10000, "tcp"⟩]).map
      natOfString = [10000, 9000] ∧
    ¬ (10000 : Nat) ≤ 9000 := by
  refine ⟨by decide, by decide, by decide⟩

/-- C8 (amended): the extracted exposed-port list is a deduplicated set
of the records' nonzero public ports (as decimal strings), sorted in
ascending lexicographic (string) order. -/
theorem extract_ports_amended (ports : List Port) :
    (∀ x, x ∈ extractPorts ports ↔
      ∃ p ∈ ports, p.PublicPort ≠ 0 ∧ x = toString p.PublicPort) ∧
    (extractPorts ports).Nodup ∧
    (extractPorts ports).Chain' (fun a b => strLe a b = true) := by
  refine ⟨?_, ?_, chain_sortStrings _⟩
  · intro x
    unfold extractPorts
    rw [mem_sortStrings, List.mem_dedup, List.mem_map]
    constructor
    · rintro ⟨p, hp, rfl⟩
      rw [List.mem_filter] at hp
      exact ⟨p, hp.1, by simpa using hp.2, rfl⟩
    · rintro ⟨p, hp, hne, rfl⟩
      exact ⟨p, List.mem_filter.mpr ⟨hp, by simpa⟩, rfl⟩
  · exact nodup_sortStrings _ (List.nodup_dedup _)

/-- Witness for C8 (amended) at a concrete input. -/
theorem extract_ports_amended_witness :
    (∀ x, x ∈ extractPorts [⟨"", 80, 3000, "tcp"⟩] ↔
      ∃ p ∈ [(⟨"", 80, 3000, "tcp"⟩ : Port)], p.PublicPort ≠ 0 ∧
        x = toString p.PublicPort) ∧
    (extractPorts [⟨"", 80, 3000, "tcp"⟩]).Nodup ∧
    (extractPorts [⟨"", 80, 3000, "tcp"⟩]).Chain'
      (fun a b => strLe a b = true) :=
  extract_ports_amended [⟨"", 80, 3000, "tcp"⟩]

/-- C9 (confirmed): `GetServices` is not total over well-formed responses:
any response containing a container whose `Names` array is empty makes
the container loop index `Names[0]` out of range — a panic, modelled as
`none` — instead of returning an error. -/
theorem get_services_empty_names_panics (cs : List Container)
    (fwd : String → Bool) (h : ∃ c ∈ cs, c.Names = []) :
    processContainers cs fwd = none :=
  processContainersAux_panic cs [] fwd h

/-- Witness for C9 at a concrete input. -/
theorem get_services_empty_names_panics_witness :
    processContainers [namelessContainer] (fun _ => true) = none :=
  get_services_empty_names_panics [namelessContainer] (fun _ => true)
    ⟨namelessContainer, by simp, rfl⟩

/-- C10 (confirmed): `RemapPort` returns `nil` on every input — it
validates nothing; the rejection of an occupied `newLocalPort` lives only
in the UI wrapper `handleRemapPort`, which returns without mutating any
state when the new port is a local listener. -/
theorem remap_no_validation (pm : PortMappings) (svc : ServiceStatus)
    (r l : String) (lp : List String) (port newPort : String) :
    (remapPort pm svc r l).2.2 = none ∧
    (IsPortInUse newPort lp = true →
      handleRemapPort pm svc (Except.ok lp) port newPort = (pm, svc)) := by
  refine ⟨rfl, ?_⟩
  intro h
  unfold handleRemapPort
  simp only [h, if_true]

/-- Witness for C10 at a concrete input. -/
theorem remap_no_validation_witness :
    (remapPort [] svcWeb "3000" "3001").2.2 = none ∧
    (IsPortInUse "3000" ["3000"] = true →
      handleRemapPort [] svcWeb (Except.ok ["3000"]) "8080" "3000" =
        ([], svcWeb)) :=
  remap_no_validation [] svcWeb "3000" "3001" ["3000"] "8080" "3000"

end Dockforward
